import Mathlib

set_option maxHeartbeats 1000000

/-!
Shallow embedding of the `homed` daemon from the koinsaari/homeserver
repository.  The repository snapshot contains two revisions of the same
modules: `rev1` embeds the code under `src/homed/src`, `rev2` embeds the
code under `src/home/homed/src`.  Pure string/path manipulation is
translated directly; filesystem effects are modelled as explicit state
passing over an association list from paths to file contents, with the
success/failure of each fallible syscall supplied by an environment
record.  External black boxes (the `infer` signature sniffer, EXIF/track
metadata decoding, ClamAV) are passed in as oracle arguments, mirroring
the spec's treatment of them as opaque collaborators.
-/

/-- A filesystem path, modelled as its character sequence. -/
abbrev FsPath := List Char

/-- File contents.  `full n` is a completely written file whose data is
abstracted by the token `n`; `truncated` is a partially written
destination left behind by a failed copy. -/
inductive Content where
  | full (n : Nat)
  | truncated
deriving DecidableEq, Repr, Inhabited

deriving instance DecidableEq for Except

/-- Filesystem state: an association list from paths to contents. -/
abbrev Fs := List (FsPath × Content)

def lookupFs (fs : Fs) (p : FsPath) : Option Content :=
  match fs with
  | [] => none
  | (q, c) :: rest => if q = p then some c else lookupFs rest p

def eraseFs (p : FsPath) : Fs → Fs
  | [] => []
  | (q, c) :: rest => if q = p then eraseFs p rest else (q, c) :: eraseFs p rest

def insertFs (p : FsPath) (c : Content) (fs : Fs) : Fs :=
  (p, c) :: eraseFs p fs

/-- Outcome environment for one `move_safe` invocation: whether each
fallible filesystem call succeeds.  (`create_dir_all`, `rename`, `copy`,
`File::sync_all`, the final `remove_file(source)`.) -/
structure MoveEnv where
  createDirOk : Bool
  renameOk : Bool
  copyOk : Bool
  syncOk : Bool
  removeOk : Bool
deriving DecidableEq, Repr

/-- The single I/O error kind surfaced by the organizer (`OrganizerError::IoError`). -/
inductive MoveErr where
  | ioError
deriving DecidableEq, Repr

namespace rev2

/-- Embeds `move_safe` from `src/home/homed/src/organizer.rs`:
rename first; on failure copy, then sync, then delete the source.
A failed copy or a failed sync removes the (possibly truncated)
destination before reporting the error.  A rename of a missing source
cannot succeed, so that case is reported as an error directly. -/
def move_safe (env : MoveEnv) (source dest : FsPath) (fs : Fs) :
    Option MoveErr × Fs :=
  if !env.createDirOk then (some .ioError, fs)
  else
    match lookupFs fs source with
    | none => (some .ioError, fs)
    | some c =>
      if env.renameOk then (none, insertFs dest c (eraseFs source fs))
      else if !env.copyOk then
        -- the failed copy may leave a truncated destination; it is removed
        (some .ioError, eraseFs dest (insertFs dest .truncated fs))
      else if !env.syncOk then
        (some .ioError, eraseFs dest (insertFs dest c fs))
      else if env.removeOk then (none, eraseFs source (insertFs dest c fs))
      else (some .ioError, insertFs dest c fs)

end rev2

namespace rev1

/-- Embeds `move_safe` from `src/homed/src/organizer.rs`: same structure
as the later revision but with no cleanup of the destination when the
copy or the sync step fails. -/
def move_safe (env : MoveEnv) (source dest : FsPath) (fs : Fs) :
    Option MoveErr × Fs :=
  if !env.createDirOk then (some .ioError, fs)
  else
    match lookupFs fs source with
    | none => (some .ioError, fs)
    | some c =>
      if env.renameOk then (none, insertFs dest c (eraseFs source fs))
      else if !env.copyOk then
        (some .ioError, insertFs dest .truncated fs)
      else if !env.syncOk then
        (some .ioError, insertFs dest c fs)
      else if env.removeOk then (none, eraseFs source (insertFs dest c fs))
      else (some .ioError, insertFs dest c fs)

end rev1

/-! ### Event model and path helpers -/

/-- `MediaType` from `watcher.rs`. -/
inductive MediaType where
  | Photo
  | Video
deriving DecidableEq, Repr

/-- A resolved timestamp, standing in for `chrono::DateTime<FixedOffset>`
restricted to the calendar fields the pipeline inspects. -/
structure DT where
  year : Nat
  month : Nat
  day : Nat
  hour : Nat
  minute : Nat
  second : Nat
deriving DecidableEq, Repr

/-- `FileEvent` from `watcher.rs` (the later revision's full variant set;
the earlier revision uses the subset without `Unsorted`/`Cleaned`). -/
inductive FileEvent where
  | Detected (path : FsPath) (size : Nat)
  | Scanned (path : FsPath) (clean : Bool)
  | Enriched (path : FsPath) (media_type : MediaType) (datetime : DT)
  | Unsorted (path : FsPath) (media_type : MediaType)
  | Organized (old_path new_path : FsPath)
  | Cleaned (path : FsPath) (reason : List Char)
  | Failed (path : FsPath) (error : List Char)
deriving DecidableEq, Repr

/-- The final component of a path (Rust `Path::file_name`, for ordinary
file paths without trailing separators). -/
def fileNameOf (p : FsPath) : FsPath :=
  (p.reverse.takeWhile (fun c => c != '/')).reverse

/-- Rust `Path::file_stem`/`Path::extension` on a file name: split before
the last `'.'`, except that a dot in the leading position does not count
(hidden files like `.bashrc` have no extension). -/
def rustExtSplit (f : FsPath) : FsPath × Option FsPath :=
  let tail := f.reverse.takeWhile (fun c => c != '.')
  if tail.length = f.length then (f, none)
  else
    let i := f.length - tail.length - 1
    if i = 0 then (f, none) else (f.take i, some (f.drop (i + 1)))

def rustFileStem (p : FsPath) : FsPath := (rustExtSplit (fileNameOf p)).1

def rustExtension (p : FsPath) : Option FsPath := (rustExtSplit (fileNameOf p)).2

def asciiLowerChar (c : Char) : Char :=
  if 'A' ≤ c ∧ c ≤ 'Z' then Char.ofNat (c.toNat + 32) else c

/-- Rust `str::to_ascii_lowercase`. -/
def asciiLower (s : List Char) : List Char := s.map asciiLowerChar

/-- Rust `str::eq_ignore_ascii_case`. -/
def eqIgnoreAsciiCase (a b : List Char) : Bool := asciiLower a == asciiLower b

/-! ### Content validator (`src/homed/src/checks.rs`) -/

namespace checks

inductive ScanRejection where
  | ExtensionBlocked (ext : FsPath)
  | ExecutableExtension (ext : FsPath)
  | FileTooSmall (size : Nat)
  | TypeMismatch (expected actual : FsPath)
  | UnrecognizedType (ext : FsPath)
  | InvalidSubtitleEncoding
  | IoError
deriving DecidableEq, Repr

def VIDEO_EXTS : List FsPath := ["mkv", "mp4", "mov", "webm"].map String.data

def SUBTITLE_EXTS : List FsPath := ["srt", "ass"].map String.data

def MIN_VIDEO_SIZE : Nat := 1024

def EXECUTABLE_EXTS : List FsPath :=
  ["exe", "bat", "cmd", "com", "sh", "bash", "zsh", "py", "pyc", "pl", "rb",
    "jar", "app", "run"].map String.data

def check_extension (path : FsPath) (allowed : List FsPath) :
    Except ScanRejection Unit :=
  let extension := (rustExtension path).getD []
  if allowed.any (fun a => eqIgnoreAsciiCase a extension) then .ok ()
  else .error (.ExtensionBlocked extension)

def check_executable_extension (path : FsPath) : Except ScanRejection Unit :=
  let extension := (rustExtension path).getD []
  if EXECUTABLE_EXTS.any (fun e => eqIgnoreAsciiCase e extension) then
    .error (.ExecutableExtension (asciiLower extension))
  else .ok ()

def check_file_size (path : FsPath) (size : Nat) : Except ScanRejection Unit :=
  let lower := asciiLower ((rustExtension path).getD [])
  if VIDEO_EXTS.contains lower ∧ size < MIN_VIDEO_SIZE then
    .error (.FileTooSmall size)
  else .ok ()

/-- Alias groups of container formats that legitimately share a binary
signature (`infer` reports MKV as webm and MOV as mp4). -/
def ALIASES : List (List FsPath) :=
  [["mkv", "webm"].map String.data, ["mp4", "mov", "m4a"].map String.data]

def is_compatible (claimed detected : FsPath) : Bool :=
  if claimed == detected then true
  else ALIASES.any (fun group => group.contains claimed && group.contains detected)

/-- The claimed (lowercased final) extension used by the magic-byte sniff. -/
def claimedExt (path : FsPath) : FsPath := asciiLower ((rustExtension path).getD [])

/-- Embeds `check_file_type`.  The `infer::get` signature detection and
the UTF-8 validity of the leading byte window are external black boxes,
passed in as the oracle arguments `detected` and `utf8Valid`. -/
def check_file_type (path : FsPath) (detected : Option FsPath)
    (utf8Valid : Bool) : Except ScanRejection Unit :=
  let extension := claimedExt path
  match detected with
  | some kind =>
    if is_compatible extension kind then .ok ()
    else .error (.TypeMismatch extension kind)
  | none =>
    if SUBTITLE_EXTS.contains extension then
      if utf8Valid then .ok () else .error .InvalidSubtitleEncoding
    else .ok ()

end checks

/-! ### Scanner stage (`src/homed/src/scanner.rs`) -/

namespace scanner

def EXECUTABLE_EXTS : List FsPath :=
  ["exe", "bat", "cmd", "com", "sh", "bash", "zsh", "py", "pyc", "pl", "rb",
    "jar", "app", "run"].map String.data

/-- Embeds `is_executable`: note the case-SENSITIVE `contains`, unlike
`checks::check_executable_extension`. -/
def is_executable (path : FsPath) : Bool :=
  let extension := (rustExtension path).getD []
  EXECUTABLE_EXTS.contains extension

def is_extension_allowed (path : FsPath) (allowed : List FsPath) : Bool :=
  let extension := (rustExtension path).getD []
  allowed.any (fun a => eqIgnoreAsciiCase a extension)

/-- The fields of `ScannerConfig` that `run_scanner` consults. -/
structure ScannerConfig where
  enabled : Bool
  allowed_extensions : List FsPath
  block_executables : Bool

/-- Outcome of the external ClamAV invocation (exit code 0 / 1 / other). -/
inductive ClamOutcome where
  | clean
  | infected
  | failed
deriving DecidableEq, Repr

/-- One iteration of the `run_scanner` event loop: the events sent on the
outbound channel in response to one inbound event.  Quarantine moves are
side effects on rejected files and are not part of the event stream. -/
def run_scanner_step (config : ScannerConfig) (clam : ClamOutcome)
    (ev : FileEvent) : List FileEvent :=
  match ev with
  | .Detected path _ =>
    if !is_extension_allowed path config.allowed_extensions then
      [.Failed path ("File extension not allowed").data]
    else if config.block_executables && is_executable path then
      [.Failed path ("Executable file blocked").data]
    else if !config.enabled then
      [.Scanned path true]
    else
      match clam with
      | .clean => [.Scanned path true]
      | .infected => [.Failed path ("Virus detected, quarantined").data]
      | .failed => [.Failed path ("Scan error").data]
  | _ => []

end scanner

/-! ### Decimal rendering (Rust `format!` of unsigned integers and
chrono's zero-padded numeric format items) -/

def decDigitChar (n : Nat) : Char := Char.ofNat (48 + n)

/-- Decimal digits of `n`, most significant first (Rust `{}` display). -/
def natDigits (n : Nat) : List Char :=
  if n < 10 then [decDigitChar n]
  else natDigits (n / 10) ++ [decDigitChar (n % 10)]
decreasing_by exact Nat.div_lt_self (by omega) (by omega)

/-- chrono `%m`/`%d`/`%H`/`%M`/`%S` and Rust `{:02}`: zero-pad to width 2. -/
def pad2 (n : Nat) : List Char :=
  if n < 10 then '0' :: natDigits n else natDigits n

/-- chrono `%Y`: zero-pad to width 4; years outside 0..=9999 are printed
with an explicit sign. -/
def pad4 (n : Nat) : List Char :=
  if n ≤ 9999 then
    (if n < 10 then ['0', '0', '0']
     else if n < 100 then ['0', '0']
     else if n < 1000 then ['0']
     else []) ++ natDigits n
  else '+' :: natDigits n

def charVal (c : Char) : Nat := c.toNat - 48

/-- Value of a decimal digit string, most significant first. -/
def decVal (l : List Char) : Nat := l.foldl (fun a c => 10 * a + charVal c) 0

/-! ### Organizer destination naming (`organizer.rs`, identical in both
revisions for dated files) -/

/-- The fields of `OrganizerConfig` consulted by the organizer and the
metadata extractor.  `photoPrefix`/`videoPrefix` embed the source fields
`photo_prefix`/`video_prefix`. -/
structure OrganizerConfig where
  enabled : Bool
  photos_dir : FsPath
  photoPrefix : FsPath
  videoPrefix : FsPath
  photo_extensions : List FsPath
  video_extensions : List FsPath
  min_valid_year : Nat
  unsorted_dir : Option FsPath

def joinPath (dir name : FsPath) : FsPath := dir ++ '/' :: name

/-- chrono `"%Y%m%d_%H%M%S"`. -/
def timestampStr (dt : DT) : FsPath :=
  pad4 dt.year ++ pad2 dt.month ++ pad2 dt.day ++
    '_' :: (pad2 dt.hour ++ pad2 dt.minute ++ pad2 dt.second)

/-- `photos_dir/YYYY/YYYY-MM` (the month segment prints the year with
plain `{}` display). -/
def targetDir (config : OrganizerConfig) (dt : DT) : FsPath :=
  joinPath (joinPath config.photos_dir (pad4 dt.year))
    (natDigits dt.year ++ '-' :: pad2 dt.month)

def targetPfx (config : OrganizerConfig) (media_type : MediaType) : FsPath :=
  match media_type with
  | .Photo => config.photoPrefix
  | .Video => config.videoPrefix

/-- The collision-free base candidate `PREFIX_YYYYMMDD_HHMMSS.ext`. -/
def targetBase (config : OrganizerConfig) (media_type : MediaType) (dt : DT)
    (ext : FsPath) : FsPath :=
  joinPath (targetDir config dt)
    (targetPfx config media_type ++ '_' :: timestampStr dt ++ '.' :: ext)

/-- The `k`-th collision candidate `PREFIX_YYYYMMDD_HHMMSS_k.ext`. -/
def targetCand (config : OrganizerConfig) (media_type : MediaType) (dt : DT)
    (ext : FsPath) (k : Nat) : FsPath :=
  joinPath (targetDir config dt)
    (targetPfx config media_type ++ '_' :: timestampStr dt ++
      '_' :: natDigits k ++ '.' :: ext)

/-- The collision-probe loop `for suffix in 1u32..`: try successive
candidates while they exist; `none` models falling off the end of the
`u32` range into `unreachable!()`. -/
def probe (occupied : FsPath → Bool) (mk : Nat → FsPath) :
    Nat → Nat → Option FsPath
  | 0, _ => none
  | fuel + 1, k =>
    if occupied (mk k) then probe occupied mk fuel (k + 1) else some (mk k)

/-- Number of iterations of `for suffix in 1u32..` (`u32::MAX`). -/
def U32_PROBE_LIMIT : Nat := 4294967295

/-- Embeds `build_target_path`: return the base candidate when no file
exists at it, otherwise probe suffixes `_1`, `_2`, ... for the first
free slot. -/
def build_target_path (fs : Fs) (config : OrganizerConfig)
    (media_type : MediaType) (dt : DT) (ext : FsPath) : Option FsPath :=
  if (lookupFs fs (targetBase config media_type dt ext)).isSome then
    probe (fun p => (lookupFs fs p).isSome)
      (targetCand config media_type dt ext) U32_PROBE_LIMIT 1
  else some (targetBase config media_type dt ext)

/-- Rust `str::rfind('.')` split used by `build_unsorted_path` (unlike
`Path::extension`, a leading dot does count here). -/
def rfindDotSplit (name : FsPath) : FsPath × Option FsPath :=
  let tail := name.reverse.takeWhile (fun c => c != '.')
  if tail.length = name.length then (name, none)
  else (name.take (name.length - tail.length - 1),
    some (name.drop (name.length - tail.length)))

/-- Embeds `build_unsorted_path` (later revision): keep the original
file name, probing `_1`, `_2`, ... inserted before the extension on
collision. -/
def build_unsorted_path (fs : Fs) (dir : FsPath) (filename : FsPath) :
    Option FsPath :=
  if !(lookupFs fs (joinPath dir filename)).isSome then
    some (joinPath dir filename)
  else
    match rfindDotSplit filename with
    | (stem, ext) =>
      probe (fun p => (lookupFs fs p).isSome)
        (fun k =>
          joinPath dir
            (match ext with
             | some e => stem ++ '_' :: natDigits k ++ '.' :: e
             | none => stem ++ '_' :: natDigits k))
        U32_PROBE_LIMIT 1

/-! ### Organizer stage event loops -/

namespace rev2

/-- Embeds `handle_unsorted` from `src/home/homed/src/organizer.rs`
(ownership changes are an external `chown` call with no effect on the
modelled filesystem). -/
def handle_unsorted (config : OrganizerConfig) (env : MoveEnv) (fs : Fs)
    (path : FsPath) : List FileEvent × Fs :=
  match config.unsorted_dir with
  | none =>
    ([.Failed path ("No valid date and unsorted_dir not configured").data], fs)
  | some ud =>
    let filename :=
      if (fileNameOf path).isEmpty then ("unknown").data else fileNameOf path
    match build_unsorted_path fs (joinPath config.photos_dir ud) filename with
    | none => ([], fs)
    | some target =>
      match move_safe env path target fs with
      | (none, fs') => ([.Organized path target], fs')
      | (some _, fs') => ([.Failed path ("Failed to move to unsorted").data], fs')

/-- One iteration of the later revision's `run_organizer` loop: the
events sent on the outbound channel and the resulting filesystem. -/
def run_organizer_step (config : OrganizerConfig) (env : MoveEnv) (fs : Fs)
    (ev : FileEvent) : List FileEvent × Fs :=
  if !config.enabled then ([ev], fs)
  else
    match ev with
    | .Enriched path media_type dt =>
      let ext := asciiLower ((rustExtension path).getD ("bin").data)
      match build_target_path fs config media_type dt ext with
      | none => ([], fs)
      | some target =>
        match move_safe env path target fs with
        | (none, fs') => ([.Organized path target], fs')
        | (some _, fs') => ([.Failed path ("Failed to organize").data], fs')
    | .Unsorted path _ => handle_unsorted config env fs path
    | other => ([other], fs)

end rev2

namespace rev1

/-- One iteration of the earlier revision's `run_organizer` loop
(`src/homed/src/organizer.rs`): any event that is not `Enriched` is
dropped (`continue`), as is every event while the stage is disabled. -/
def run_organizer_step (config : OrganizerConfig) (env : MoveEnv) (fs : Fs)
    (ev : FileEvent) : List FileEvent × Fs :=
  match ev with
  | .Enriched path media_type dt =>
    if !config.enabled then ([], fs)
    else
      let ext := asciiLower ((rustExtension path).getD ("bin").data)
      match build_target_path fs config media_type dt ext with
      | none => ([], fs)
      | some target =>
        match move_safe env path target fs with
        | (none, fs') => ([.Organized path target], fs')
        | (some _, fs') => ([.Failed path ("Failed to organize").data], fs')
  | _ => ([], fs)

end rev1

/-! ### Metadata extractor (`src/home/homed/src/metadata.rs`) -/

def classify_media_type (path : FsPath) (config : OrganizerConfig) :
    Option MediaType :=
  match rustExtension path with
  | none => none
  | some e =>
    let lower := asciiLower e
    if config.photo_extensions.any (fun x => eqIgnoreAsciiCase x lower) then
      some .Photo
    else if config.video_extensions.any (fun x => eqIgnoreAsciiCase x lower) then
      some .Video
    else none

def isLeapYear (y : Nat) : Bool :=
  y % 4 == 0 && (y % 100 != 0 || y % 400 == 0)

def daysInMonth (y m : Nat) : Nat :=
  if m = 2 then (if isLeapYear y then 29 else 28)
  else if m = 4 ∨ m = 6 ∨ m = 9 ∨ m = 11 then 30
  else 31

def validDate (y m d : Nat) : Prop :=
  1 ≤ m ∧ m ≤ 12 ∧ 1 ≤ d ∧ d ≤ daysInMonth y m

instance (y m d : Nat) : Decidable (validDate y m d) := by
  unfold validDate; infer_instance

/-- chrono accepts second 60 when parsing (leap second). -/
def validTime (h mi s : Nat) : Prop := h ≤ 23 ∧ mi ≤ 59 ∧ s ≤ 60

instance (h mi s : Nat) : Decidable (validTime h mi s) := by
  unfold validTime; infer_instance

/-- `NaiveDateTime::parse_from_str(_, "%Y%m%d%H%M%S")` on an all-digit
string: `%Y` consumes four digits, each later field two, and the parse
fails unless the fields form a valid calendar date-time. -/
def parseYmdHms (l : List Char) : Option DT :=
  if l.length = 14 then
    let y := decVal (l.take 4)
    let mo := decVal ((l.drop 4).take 2)
    let d := decVal ((l.drop 6).take 2)
    let h := decVal ((l.drop 8).take 2)
    let mi := decVal ((l.drop 10).take 2)
    let s := decVal ((l.drop 12).take 2)
    if validDate y mo d ∧ validTime h mi s then some ⟨y, mo, d, h, mi, s⟩
    else none
  else none

/-- Embeds `extract_datetime_from_filename`: gather the digit characters
of the file stem; parse the first 14 as `YYYYMMDDHHMMSS`, or the first 8
(with `"000000"` appended) as a date at midnight. -/
def extract_datetime_from_filename (path : FsPath) : Option DT :=
  let digits := (rustFileStem path).filter Char.isDigit
  if 14 ≤ digits.length then parseYmdHms (digits.take 14)
  else if 8 ≤ digits.length then
    parseYmdHms (digits.take 8 ++ ('0' :: '0' :: '0' :: '0' :: '0' :: '0' :: []))
  else none

/-- Embeds `extract_best_datetime`.  The EXIF/track decoding is an
external black box, passed in as the oracle argument `exif`.  A
candidate whose year is below `min_valid_year` is discarded and
resolution falls through to the next source. -/
def extract_best_datetime (exif : Option DT) (path : FsPath)
    (min_valid_year : Nat) : Option DT :=
  let fromName :=
    match extract_datetime_from_filename path with
    | some dt => if min_valid_year ≤ dt.year then some dt else none
    | none => none
  match exif with
  | some dt => if min_valid_year ≤ dt.year then some dt else fromName
  | none => fromName

namespace rev2

/-- One iteration of `run_metadata` (later revision): classification and
timestamp resolution for `Detected` events, pass-through for the rest. -/
def run_metadata_step (config : OrganizerConfig) (exif : Option DT)
    (ev : FileEvent) : List FileEvent :=
  match ev with
  | .Detected path _ =>
    match classify_media_type path config with
    | none => [.Failed path ("Unsupported media type").data]
    | some mt =>
      match extract_best_datetime exif path config.min_valid_year with
      | some dt => [.Enriched path mt dt]
      | none => [.Unsorted path mt]
  | other => [other]

end rev2

/-! ### Watcher stage (`watcher.rs`, both revisions) -/

/-- The pending map: path to last-observed-activity instant (modelled as
a natural-number timestamp). -/
abbrev PendingMap := List (FsPath × Nat)

/-- The shutdown flush, identical in both revisions
(`src/home/homed/src/watcher.rs` and `src/homed/src/watcher.rs`): every
still-pending path whose stat succeeds is emitted as `Detected`, with no
debounce condition and no size condition; paths whose stat fails are
skipped. -/
def watcherFlush (stat : FsPath → Option Nat) (pending : PendingMap) :
    List FileEvent :=
  pending.filterMap (fun e => (stat e.1).map (fun size => FileEvent.Detected e.1 size))

namespace rev2

/-- One periodic stability tick of the later revision's `run_watcher`:
entries quiet for at least the debounce interval are removed; each is
re-stat'ed and emitted as `Detected` unless the stat fails or the size
is zero.  `now - lastSeen` uses truncated subtraction, matching
`Instant::duration_since` saturation. -/
def watcherTick (debounce now : Nat) (stat : FsPath → Option Nat)
    (pending : PendingMap) : PendingMap × List FileEvent :=
  let ready := pending.filter (fun e => decide (debounce ≤ now - e.2))
  let remaining := pending.filter (fun e => !decide (debounce ≤ now - e.2))
  (remaining,
    ready.filterMap (fun e =>
      match stat e.1 with
      | some size => if size = 0 then none else some (.Detected e.1 size)
      | none => none))

end rev2

namespace rev1

/-- One periodic stability tick of the earlier revision's `run_watcher`
(`src/homed/src/watcher.rs`): as in the later revision but with no
zero-size check — any successful stat is emitted. -/
def watcherTick (debounce now : Nat) (stat : FsPath → Option Nat)
    (pending : PendingMap) : PendingMap × List FileEvent :=
  let ready := pending.filter (fun e => decide (debounce ≤ now - e.2))
  let remaining := pending.filter (fun e => !decide (debounce ≤ now - e.2))
  (remaining,
    ready.filterMap (fun e =>
      match stat e.1 with
      | some size => some (.Detected e.1 size)
      | none => none))

end rev1

/-- Variant discriminators used to state the pass-through properties. -/
def FileEvent.isDetected : FileEvent → Bool
  | .Detected _ _ => true
  | _ => false

def FileEvent.isEnriched : FileEvent → Bool
  | .Enriched _ _ _ => true
  | _ => false

/-- The variants the later organizer consumes (`Enriched` and `Unsorted`). -/
def FileEvent.consumedByOrganizer : FileEvent → Bool
  | .Enriched _ _ _ => true
  | .Unsorted _ _ => true
  | _ => false

/-! ### Theorems -/

theorem lookupFs_eraseFs_self (p : FsPath) (fs : Fs) :
    lookupFs (eraseFs p fs) p = none := by
  induction fs with
  | nil => rfl
  | cons hd tl ih =>
    obtain ⟨q, c⟩ := hd
    by_cases h : q = p
    · simpa [eraseFs, h] using ih
    · simpa [eraseFs, lookupFs, h] using ih

theorem lookupFs_eraseFs_ne (p q : FsPath) (fs : Fs) (h : q ≠ p) :
    lookupFs (eraseFs p fs) q = lookupFs fs q := by
  induction fs with
  | nil => rfl
  | cons hd tl ih =>
    obtain ⟨r, c⟩ := hd
    have hpq : p ≠ q := fun hp => h hp.symm
    by_cases hr : r = p
    · subst hr
      simp [eraseFs, lookupFs, hpq, ih]
    · by_cases hq : r = q
      · subst hq
        simp [eraseFs, lookupFs, hr, h]
      · simp [eraseFs, lookupFs, hr, hq, ih]

theorem lookupFs_insertFs_self (p : FsPath) (c : Content) (fs : Fs) :
    lookupFs (insertFs p c fs) p = some c := by
  simp [insertFs, lookupFs]

theorem lookupFs_insertFs_ne (p q : FsPath) (c : Content) (fs : Fs) (h : q ≠ p) :
    lookupFs (insertFs p c fs) q = lookupFs fs q := by
  have hpq : p ≠ q := fun hp => h hp.symm
  simp [insertFs, lookupFs, hpq, lookupFs_eraseFs_ne p q fs h]

/-- C1: in the later revision, whenever the rename fails and then the
copy or the sync fails, `move_safe` reports an error, has removed the
partial destination, and has kept the source; moreover under any outcome
environment at least one complete copy of the data survives, and the
source is gone only when the destination holds the complete data. -/
theorem moveSafe_crash_safe (env : MoveEnv) (source dest : FsPath) (fs : Fs)
    (c : Content) (hne : source ≠ dest)
    (hsrc : lookupFs fs source = some c)
    (hdst : lookupFs fs dest = none) :
    (lookupFs (rev2.move_safe env source dest fs).2 source = some c ∨
       lookupFs (rev2.move_safe env source dest fs).2 dest = some c) ∧
    (env.createDirOk = true → env.renameOk = false →
      (env.copyOk = false ∨ env.syncOk = false) →
      (rev2.move_safe env source dest fs).1 = some .ioError ∧
        lookupFs (rev2.move_safe env source dest fs).2 dest = none ∧
        lookupFs (rev2.move_safe env source dest fs).2 source = some c) ∧
    (lookupFs (rev2.move_safe env source dest fs).2 source = none →
      lookupFs (rev2.move_safe env source dest fs).2 dest = some c) := by
  have hds : dest ≠ source := fun h => hne h.symm
  obtain ⟨cd, rn, cp, sy, rm⟩ := env
  cases cd <;> cases rn <;> cases cp <;> cases sy <;> cases rm <;>
    simp_all [rev2.move_safe, lookupFs_insertFs_self, lookupFs_insertFs_ne,
      lookupFs_eraseFs_self, lookupFs_eraseFs_ne]

/-- Witness for `moveSafe_crash_safe` at a concrete state: source file
`"a"` with data token `0`, fresh destination `"b"`, rename and copy both
failing. -/
theorem moveSafe_crash_safe_witness :
    (lookupFs
        (rev2.move_safe ⟨true, false, false, true, true⟩ ['a'] ['b']
          [(['a'], Content.full 0)]).2 ['a'] = some (Content.full 0) ∨
      lookupFs
        (rev2.move_safe ⟨true, false, false, true, true⟩ ['a'] ['b']
          [(['a'], Content.full 0)]).2 ['b'] = some (Content.full 0)) ∧
    ((⟨true, false, false, true, true⟩ : MoveEnv).createDirOk = true →
      (⟨true, false, false, true, true⟩ : MoveEnv).renameOk = false →
      ((⟨true, false, false, true, true⟩ : MoveEnv).copyOk = false ∨
        (⟨true, false, false, true, true⟩ : MoveEnv).syncOk = false) →
      (rev2.move_safe ⟨true, false, false, true, true⟩ ['a'] ['b']
          [(['a'], Content.full 0)]).1 = some .ioError ∧
        lookupFs
          (rev2.move_safe ⟨true, false, false, true, true⟩ ['a'] ['b']
            [(['a'], Content.full 0)]).2 ['b'] = none ∧
        lookupFs
          (rev2.move_safe ⟨true, false, false, true, true⟩ ['a'] ['b']
            [(['a'], Content.full 0)]).2 ['a'] = some (Content.full 0)) ∧
    (lookupFs
        (rev2.move_safe ⟨true, false, false, true, true⟩ ['a'] ['b']
          [(['a'], Content.full 0)]).2 ['a'] = none →
      lookupFs
        (rev2.move_safe ⟨true, false, false, true, true⟩ ['a'] ['b']
          [(['a'], Content.full 0)]).2 ['b'] = some (Content.full 0)) :=
  moveSafe_crash_safe ⟨true, false, false, true, true⟩ ['a'] ['b']
    [(['a'], Content.full 0)] (Content.full 0) (by decide) (by decide) (by decide)

/-- C1 counterexample: in the earlier revision (`src/homed`), a failed
copy after a failed rename reports an error but leaves the truncated
partial destination file in place, contradicting the claim that the
partial destination has been removed. -/
theorem rev1_moveSafe_leaves_truncated_dest :
    (rev1.move_safe ⟨true, false, false, true, true⟩ ['a'] ['b']
        [(['a'], Content.full 0)]).1 = some .ioError ∧
    lookupFs
        (rev1.move_safe ⟨true, false, false, true, true⟩ ['a'] ['b']
          [(['a'], Content.full 0)]).2 ['b'] = some Content.truncated ∧
    ¬ lookupFs
        (rev1.move_safe ⟨true, false, false, true, true⟩ ['a'] ['b']
          [(['a'], Content.full 0)]).2 ['b'] = none := by
  decide

/-- C2 counterexample: the scanner does not forward events it does not
consume — a `Scanned` event received by `run_scanner` is dropped
(`continue`), not sent on the outbound channel. -/
theorem scanner_drops_nonDetected :
    scanner.run_scanner_step ⟨true, [], false⟩ .clean (.Scanned ['a'] true) = [] ∧
    ¬ scanner.run_scanner_step ⟨true, [], false⟩ .clean (.Scanned ['a'] true)
        = [.Scanned ['a'] true] := by
  decide

/-- C2 (amended): the later organizer forwards every event it does not
consume unmodified and becomes a pure pass-through when disabled, and the
later metadata stage forwards every non-`Detected` event; but the scanner
drops every non-`Detected` event, and the earlier organizer drops every
non-`Enriched` event (including all events while disabled). -/
theorem pass_through_amended :
    (∀ (config : OrganizerConfig) (env : MoveEnv) (fs : Fs) (ev : FileEvent),
      ev.consumedByOrganizer = false →
      rev2.run_organizer_step config env fs ev = ([ev], fs)) ∧
    (∀ (config : OrganizerConfig) (env : MoveEnv) (fs : Fs) (ev : FileEvent),
      config.enabled = false →
      rev2.run_organizer_step config env fs ev = ([ev], fs)) ∧
    (∀ (config : OrganizerConfig) (exif : Option DT) (ev : FileEvent),
      ev.isDetected = false → rev2.run_metadata_step config exif ev = [ev]) ∧
    (∀ (config : scanner.ScannerConfig) (clam : scanner.ClamOutcome)
      (ev : FileEvent),
      ev.isDetected = false → scanner.run_scanner_step config clam ev = []) ∧
    (∀ (config : OrganizerConfig) (env : MoveEnv) (fs : Fs) (ev : FileEvent),
      ev.isEnriched = false → rev1.run_organizer_step config env fs ev = ([], fs)) := by
  refine ⟨?_, ?_, ?_, ?_, ?_⟩
  · intro config env fs ev h
    cases hen : config.enabled <;> cases ev <;>
      simp_all [rev2.run_organizer_step, FileEvent.consumedByOrganizer]
  · intro config env fs ev h
    simp [rev2.run_organizer_step, h]
  · intro config exif ev h
    cases ev <;> simp_all [rev2.run_metadata_step, FileEvent.isDetected]
  · intro config clam ev h
    cases ev <;> simp_all [scanner.run_scanner_step, FileEvent.isDetected]
  · intro config env fs ev h
    cases ev <;> simp_all [rev1.run_organizer_step, FileEvent.isEnriched]

/-- Witness for `pass_through_amended` at concrete inputs: the later
organizer forwards a `Detected` event; the scanner drops a `Failed`
event. -/
theorem pass_through_amended_witness :
    FileEvent.consumedByOrganizer (.Detected ['a'] 3) = false ∧
    rev2.run_organizer_step ⟨true, [], [], [], [], [], 2000, none⟩
        ⟨true, true, true, true, true⟩ [] (.Detected ['a'] 3)
      = ([.Detected ['a'] 3], []) ∧
    FileEvent.isDetected (.Failed ['a'] []) = false ∧
    scanner.run_scanner_step ⟨true, [], false⟩ .clean (.Failed ['a'] []) = [] :=
  ⟨by decide, pass_through_amended.1 _ _ _ _ (by decide), by decide,
    pass_through_amended.2.2.2.1 _ _ _ (by decide)⟩

/-- C6: the executable-extension check decides from the final extension
component alone; `movie.mkv.exe` is rejected with `ExecutableExtension`
while `virus.exe.mkv` passes despite its inner `exe` component. -/
theorem check_executable_extension_final_only (p q : FsPath)
    (h : rustExtension p = rustExtension q) :
    checks.check_executable_extension p = checks.check_executable_extension q ∧
    checks.check_executable_extension ("movie.mkv.exe").data
      = .error (.ExecutableExtension ("exe").data) ∧
    checks.check_executable_extension ("virus.exe.mkv").data = .ok () := by
  refine ⟨?_, by decide, by decide⟩
  simp [checks.check_executable_extension, h]

/-- Witness for `check_executable_extension_final_only`: two distinct
paths with the same final extension are decided identically. -/
theorem check_executable_extension_final_only_witness :
    rustExtension ("a.exe").data = rustExtension ("b/c.d.exe").data ∧
    (checks.check_executable_extension ("a.exe").data
        = checks.check_executable_extension ("b/c.d.exe").data ∧
      checks.check_executable_extension ("movie.mkv.exe").data
        = .error (.ExecutableExtension ("exe").data) ∧
      checks.check_executable_extension ("virus.exe.mkv").data = .ok ()) :=
  ⟨by decide, check_executable_extension_final_only ("a.exe").data
    ("b/c.d.exe").data (by decide)⟩

/-- C9: on an exact lowercase denylist extension both predicates block,
but on the uppercase variant `virus.EXE` the validator's case-insensitive
check rejects while the scanner's case-sensitive `is_executable` returns
false, so `run_scanner` passes the file through as clean instead of
blocking it as an executable. -/
theorem executable_predicates_divergence :
    (∀ (path e : FsPath), rustExtension path = some e →
      e ∈ checks.EXECUTABLE_EXTS →
      checks.check_executable_extension path
          = .error (.ExecutableExtension e) ∧
        scanner.is_executable path = true) ∧
    checks.check_executable_extension ("virus.EXE").data
      = .error (.ExecutableExtension ("exe").data) ∧
    scanner.is_executable ("virus.EXE").data = false ∧
    scanner.run_scanner_step ⟨false, [("exe").data], true⟩ .clean
        (.Detected ("virus.EXE").data 5)
      = [.Scanned ("virus.EXE").data true] := by
  refine ⟨?_, by decide, by decide, by decide⟩
  intro path e h he
  fin_cases he <;>
    simp [checks.check_executable_extension, scanner.is_executable,
      checks.EXECUTABLE_EXTS, scanner.EXECUTABLE_EXTS, h] <;> decide

/-- Witness for `executable_predicates_divergence`: the lowercase
`virus.exe` is blocked by both predicates. -/
theorem executable_predicates_divergence_witness :
    rustExtension ("virus.exe").data = some ("exe").data ∧
    (checks.check_executable_extension ("virus.exe").data
        = .error (.ExecutableExtension ("exe").data) ∧
      scanner.is_executable ("virus.exe").data = true) :=
  ⟨by decide, executable_predicates_divergence.1 ("virus.exe").data
    ("exe").data (by decide) (by decide)⟩

/-- C5: the magic-byte sniff rejects with `TypeMismatch` exactly when a
signature is detected whose canonical extension is incompatible with the
claimed extension (equal or same alias group); with no signature it
rejects with `InvalidSubtitleEncoding` exactly when the extension is a
subtitle type and the byte window is not valid UTF-8; every other
no-signature case passes.  Compatibility is equality or joint membership
in one of the declared alias groups (mkv/webm, mp4/mov/m4a). -/
theorem check_file_type_spec (path : FsPath) (detected : Option FsPath)
    (utf8Valid : Bool) :
    ((∃ a b, checks.check_file_type path detected utf8Valid
        = .error (.TypeMismatch a b)) ↔
      ∃ d, detected = some d ∧
        checks.is_compatible (checks.claimedExt path) d = false) ∧
    (checks.check_file_type path detected utf8Valid
        = .error .InvalidSubtitleEncoding ↔
      detected = none ∧ checks.claimedExt path ∈ checks.SUBTITLE_EXTS ∧
        utf8Valid = false) ∧
    (detected = none → checks.claimedExt path ∉ checks.SUBTITLE_EXTS →
      checks.check_file_type path detected utf8Valid = .ok ()) ∧
    (∀ a b : FsPath, checks.is_compatible a b = true ↔
      a = b ∨ ∃ g ∈ checks.ALIASES, a ∈ g ∧ b ∈ g) := by
  refine ⟨?_, ?_, ?_, ?_⟩
  · cases detected with
    | none =>
      by_cases hs : checks.claimedExt path ∈ checks.SUBTITLE_EXTS <;>
        cases utf8Valid <;> simp [checks.check_file_type, hs]
    | some d =>
      by_cases hc : checks.is_compatible (checks.claimedExt path) d = true
      · simp [checks.check_file_type, hc]
      · have hcf : checks.is_compatible (checks.claimedExt path) d = false := by
          simpa using hc
        simp [checks.check_file_type, hcf]
  · cases detected with
    | none =>
      by_cases hs : checks.claimedExt path ∈ checks.SUBTITLE_EXTS <;>
        cases utf8Valid <;> simp [checks.check_file_type, hs]
    | some d =>
      by_cases hc : checks.is_compatible (checks.claimedExt path) d = true
      · simp [checks.check_file_type, hc]
      · have hcf : checks.is_compatible (checks.claimedExt path) d = false := by
          simpa using hc
        simp [checks.check_file_type, hcf]
  · intro hdet hmem
    subst hdet
    simp [checks.check_file_type, hmem]
  · intro a b
    by_cases hab : a = b
    · simp [checks.is_compatible, hab]
    · have hbeq : (a == b) = false := by simpa using hab
      simp only [checks.is_compatible, hbeq, Bool.false_eq_true, if_false,
        List.any_eq_true, Bool.and_eq_true]
      constructor
      · rintro ⟨g, hg, ha, hb⟩
        exact Or.inr ⟨g, hg, by simpa using ha, by simpa using hb⟩
      · rintro (h | ⟨g, hg, ha, hb⟩)
        · exact absurd h hab
        · exact ⟨g, hg, by simpa using ha, by simpa using hb⟩

/-- Witness for `check_file_type_spec`: an unrecognized signature under a
non-subtitle extension passes. -/
theorem check_file_type_spec_witness :
    ((none : Option FsPath) = none) ∧
    checks.claimedExt ("mystery.mkv").data ∉ checks.SUBTITLE_EXTS ∧
    checks.check_file_type ("mystery.mkv").data none true = .ok () :=
  ⟨rfl, by decide,
    (check_file_type_spec ("mystery.mkv").data none true).2.2.1 rfl (by decide)⟩

/-- C7: every timestamp returned by `extract_best_datetime` has year at
least `min_valid_year`; an embedded-metadata candidate below the minimum
is discarded and resolution falls through to the filename source; and a
filename candidate below the minimum (with no embedded candidate) yields
`none`. -/
theorem extract_best_datetime_min_year (exif : Option DT) (path : FsPath)
    (minYear : Nat) :
    (∀ dt, extract_best_datetime exif path minYear = some dt →
      minYear ≤ dt.year) ∧
    (∀ d, exif = some d → d.year < minYear →
      extract_best_datetime exif path minYear
        = extract_best_datetime none path minYear) ∧
    (exif = none → ∀ d, extract_datetime_from_filename path = some d →
      d.year < minYear → extract_best_datetime exif path minYear = none) := by
  refine ⟨?_, ?_, ?_⟩
  · intro dt hdt
    cases hex : exif with
    | none =>
      subst hex
      simp only [extract_best_datetime] at hdt
      cases hfn : extract_datetime_from_filename path with
      | none => simp [hfn] at hdt
      | some d =>
        simp only [hfn] at hdt
        by_cases hy : minYear ≤ d.year
        · simp [hy] at hdt
          subst hdt; exact hy
        · simp [hy] at hdt
    | some d =>
      subst hex
      simp only [extract_best_datetime] at hdt
      by_cases hy : minYear ≤ d.year
      · simp [hy] at hdt
        subst hdt; exact hy
      · simp only [hy, if_false] at hdt
        cases hfn : extract_datetime_from_filename path with
        | none => simp [hfn] at hdt
        | some d2 =>
          simp only [hfn] at hdt
          by_cases hy2 : minYear ≤ d2.year
          · simp [hy2] at hdt
            subst hdt; exact hy2
          · simp [hy2] at hdt
  · intro d hex hy
    subst hex
    have hy' : ¬ minYear ≤ d.year := by omega
    simp [extract_best_datetime, hy']
  · intro hex d hfn hy
    subst hex
    have hy' : ¬ minYear ≤ d.year := by omega
    simp [extract_best_datetime, hfn, hy']

/-- Witness for `extract_best_datetime_min_year`: an epoch-dated
embedded candidate (1970) under a minimum year of 2000 falls through to
the filename source. -/
theorem extract_best_datetime_min_year_witness :
    ((some ⟨1970, 1, 1, 0, 0, 0⟩ : Option DT) = some ⟨1970, 1, 1, 0, 0, 0⟩) ∧
    (1970 < 2000) ∧
    extract_best_datetime (some ⟨1970, 1, 1, 0, 0, 0⟩)
        ("IMG_20260211_143022.jpg").data 2000
      = extract_best_datetime none ("IMG_20260211_143022.jpg").data 2000 :=
  ⟨rfl, by decide,
    (extract_best_datetime_min_year (some ⟨1970, 1, 1, 0, 0, 0⟩)
      ("IMG_20260211_143022.jpg").data 2000).2.1 ⟨1970, 1, 1, 0, 0, 0⟩ rfl
      (by decide)⟩

theorem exists_eight (t : List Char) (ht : t.length = 8) :
    ∃ a b c d e f g h, t = [a, b, c, d, e, f, g, h] := by
  rcases t with _ | ⟨a, t⟩; · simp at ht
  rcases t with _ | ⟨b, t⟩; · simp at ht
  rcases t with _ | ⟨c, t⟩; · simp at ht
  rcases t with _ | ⟨d, t⟩; · simp at ht
  rcases t with _ | ⟨e, t⟩; · simp at ht
  rcases t with _ | ⟨f, t⟩; · simp at ht
  rcases t with _ | ⟨g, t⟩; · simp at ht
  rcases t with _ | ⟨h, t⟩; · simp at ht
  rcases t with _ | ⟨i, t⟩
  · exact ⟨a, b, c, d, e, f, g, h, rfl⟩
  · simp at ht

theorem parseYmdHms_8digits (a b c d e f g h : Char) :
    parseYmdHms ([a, b, c, d, e, f, g, h] ++ ('0' :: '0' :: '0' :: '0' :: '0' :: '0' :: []))
      = if validDate (decVal [a, b, c, d]) (decVal [e, f]) (decVal [g, h])
        then some ⟨decVal [a, b, c, d], decVal [e, f], decVal [g, h], 0, 0, 0⟩
        else none := by
  have hred : parseYmdHms
      ([a, b, c, d, e, f, g, h] ++ ('0' :: '0' :: '0' :: '0' :: '0' :: '0' :: []))
      = if validDate (decVal [a, b, c, d]) (decVal [e, f]) (decVal [g, h]) ∧
            validTime 0 0 0
        then some ⟨decVal [a, b, c, d], decVal [e, f], decVal [g, h], 0, 0, 0⟩
        else none := rfl
  rw [hred]
  by_cases hv : validDate (decVal [a, b, c, d]) (decVal [e, f]) (decVal [g, h])
  · rw [if_pos ⟨hv, by decide⟩, if_pos hv]
  · rw [if_neg (fun hc => hv hc.1), if_neg hv]

/-- C3: with `D` the digit characters of the file stem in order, the
filename extraction parses exactly the first 14 digits as
`YYYYMMDDHHMMSS` when `|D| ≥ 14` (yielding `none`, with no fallback to
the 8-digit form, when they are not a valid calendar time); parses the
first 8 digits as `YYYYMMDD` at midnight when `8 ≤ |D| ≤ 13`; and yields
no timestamp when `|D| < 8`. -/
theorem extract_datetime_from_filename_spec (path : FsPath) (D : List Char)
    (hD : D = (rustFileStem path).filter Char.isDigit) :
    (14 ≤ D.length →
      extract_datetime_from_filename path = parseYmdHms (D.take 14)) ∧
    (14 ≤ D.length → parseYmdHms (D.take 14) = none →
      extract_datetime_from_filename path = none) ∧
    (∀ l : List Char, l.length = 14 →
      parseYmdHms l
        = if validDate (decVal (l.take 4)) (decVal ((l.drop 4).take 2))
              (decVal ((l.drop 6).take 2)) ∧
            validTime (decVal ((l.drop 8).take 2)) (decVal ((l.drop 10).take 2))
              (decVal ((l.drop 12).take 2))
          then some ⟨decVal (l.take 4), decVal ((l.drop 4).take 2),
            decVal ((l.drop 6).take 2), decVal ((l.drop 8).take 2),
            decVal ((l.drop 10).take 2), decVal ((l.drop 12).take 2)⟩
          else none) ∧
    (8 ≤ D.length → D.length ≤ 13 →
      extract_datetime_from_filename path
        = if validDate (decVal (D.take 4)) (decVal ((D.drop 4).take 2))
              (decVal ((D.drop 6).take 2))
          then some ⟨decVal (D.take 4), decVal ((D.drop 4).take 2),
            decVal ((D.drop 6).take 2), 0, 0, 0⟩
          else none) ∧
    (D.length < 8 → extract_datetime_from_filename path = none) := by
  refine ⟨?_, ?_, ?_, ?_, ?_⟩
  · intro h14
    simp only [extract_datetime_from_filename, ← hD]
    rw [if_pos h14]
  · intro h14 hn
    simp only [extract_datetime_from_filename, ← hD]
    rw [if_pos h14, hn]
  · intro l hl
    simp [parseYmdHms, hl]
  · intro h8 h13
    have h14 : ¬ 14 ≤ D.length := by omega
    have ht : (D.take 8).length = 8 := by
      rw [List.length_take]; omega
    obtain ⟨a, b, c, d0, e, f, g, h0, hexp⟩ := exists_eight (D.take 8) ht
    have hDfull : D = [a, b, c, d0, e, f, g, h0] ++ D.drop 8 := by
      conv_lhs => rw [← List.take_append_drop 8 D, hexp]
    have h4 : D.take 4 = [a, b, c, d0] := by
      rw [hDfull]; rfl
    have h42 : (D.drop 4).take 2 = [e, f] := by
      rw [hDfull]; rfl
    have h62 : (D.drop 6).take 2 = [g, h0] := by
      rw [hDfull]; rfl
    have hmain : extract_datetime_from_filename path
        = parseYmdHms (D.take 8 ++ ('0' :: '0' :: '0' :: '0' :: '0' :: '0' :: [])) := by
      simp only [extract_datetime_from_filename, ← hD]
      rw [if_neg h14, if_pos h8]
    rw [hmain, hexp, parseYmdHms_8digits, ← h4, ← h42, ← h62]
  · intro hlt
    have h14 : ¬ 14 ≤ D.length := by omega
    have h8 : ¬ 8 ≤ D.length := by omega
    simp only [extract_datetime_from_filename, ← hD]
    rw [if_neg h14, if_neg h8]

/-- Witness for `extract_datetime_from_filename_spec`: the stem of
`IMG_20260211_143022.jpg` carries exactly 14 digits, parsed as a full
timestamp. -/
theorem extract_datetime_from_filename_spec_witness :
    ("20260211143022").data
        = (rustFileStem ("photos/IMG_20260211_143022.jpg").data).filter
            Char.isDigit ∧
    extract_datetime_from_filename ("photos/IMG_20260211_143022.jpg").data
      = parseYmdHms (("20260211143022").data.take 14) :=
  ⟨by decide,
    (extract_datetime_from_filename_spec ("photos/IMG_20260211_143022.jpg").data
      ("20260211143022").data (by decide)).1 (by decide)⟩

theorem pendingKeys_eq {pending : PendingMap} {p : FsPath} {a b : Nat}
    (hnd : (pending.map Prod.fst).Nodup)
    (ha : (p, a) ∈ pending) (hb : (p, b) ∈ pending) : a = b := by
  induction pending with
  | nil => cases ha
  | cons hd tl ih =>
    rw [List.map_cons, List.nodup_cons] at hnd
    rcases List.mem_cons.1 ha with ha1 | ha1 <;>
      rcases List.mem_cons.1 hb with hb1 | hb1
    · have h := ha1.trans hb1.symm
      injection h with h1 h2
    · exfalso
      apply hnd.1
      have hmem2 : p ∈ tl.map Prod.fst := List.mem_map_of_mem Prod.fst hb1
      rw [← ha1]
      exact hmem2
    · exfalso
      apply hnd.1
      have hmem2 : p ∈ tl.map Prod.fst := List.mem_map_of_mem Prod.fst ha1
      rw [← hb1]
      exact hmem2
    · exact ih hnd.2 ha1 hb1

/-- C8 (amended): in the later revision's periodic stability tick, an
entry whose last-seen timestamp is older than the debounce interval is
removed from the pending map, and a `Detected{path, size}` event is
emitted for it exactly when the re-stat succeeds with a non-zero size —
a zero-size file is dropped without any event. -/
theorem watcherTick_zero_size_drop (debounce now : Nat)
    (stat : FsPath → Option Nat) (pending : PendingMap) (p : FsPath) (t : Nat)
    (hnd : (pending.map Prod.fst).Nodup)
    (hmem : (p, t) ∈ pending) (hready : debounce ≤ now - t) :
    (∀ t2, (p, t2) ∉ (rev2.watcherTick debounce now stat pending).1) ∧
    (∀ size, FileEvent.Detected p size
        ∈ (rev2.watcherTick debounce now stat pending).2 ↔
      stat p = some size ∧ size ≠ 0) := by
  constructor
  · intro t2 hmem2
    simp only [rev2.watcherTick, List.mem_filter] at hmem2
    have ht2 : t2 = t := pendingKeys_eq hnd hmem2.1 hmem
    rw [ht2] at hmem2
    simp [hready] at hmem2
  · intro size
    constructor
    · intro hev
      simp only [rev2.watcherTick, List.mem_filterMap] at hev
      obtain ⟨⟨q, t3⟩, hein, he⟩ := hev
      rcases hstat : stat q with _ | sz
      · simp [hstat] at he
      · simp only [hstat] at he
        by_cases hz : sz = 0
        · simp [hz] at he
        · simp only [hz, if_false, Option.some.injEq,
            FileEvent.Detected.injEq] at he
          obtain ⟨hep, hes⟩ := he
          subst hep
          subst hes
          exact ⟨hstat, hz⟩
    · rintro ⟨hstat, hz⟩
      simp only [rev2.watcherTick, List.mem_filterMap]
      refine ⟨(p, t), ?_, ?_⟩
      · simp [List.mem_filter, hmem, hready]
      · simp [hstat, hz]

/-- Witness for `watcherTick_zero_size_drop`: a single debounced entry
whose stat reports a non-zero size is removed and emitted. -/
theorem watcherTick_zero_size_drop_witness :
    (([(['a'], 0)] : PendingMap).map Prod.fst).Nodup ∧
    ((['a'], 0) ∈ ([(['a'], 0)] : PendingMap)) ∧ 5 ≤ 10 - 0 ∧
    ((∀ t2, (['a'], t2) ∉ (rev2.watcherTick 5 10 (fun _ => some 3)
        [(['a'], 0)]).1) ∧
      (∀ size, FileEvent.Detected ['a'] size
          ∈ (rev2.watcherTick 5 10 (fun _ => some 3) [(['a'], 0)]).2 ↔
        (fun _ => some 3) ['a'] = some size ∧ size ≠ 0)) :=
  ⟨by decide, by decide, by decide,
    watcherTick_zero_size_drop 5 10 (fun _ => some 3) [(['a'], 0)] ['a'] 0
      (by decide) (by decide) (by decide)⟩

/-- C8 counterexample: in the earlier revision (`src/homed`), the
periodic tick emits `Detected` even for a file whose re-stat reports
size zero, contradicting the claim that zero-size files are dropped
without an event. -/
theorem rev1_watcherTick_emits_zero_size :
    (rev1.watcherTick 5 10 (fun _ => some 0) [(['a'], 0)]).2
        = [.Detected ['a'] 0] ∧
    ¬ (rev1.watcherTick 5 10 (fun _ => some 0) [(['a'], 0)]).2 = [] := by
  decide

/-- C10: the shutdown flush emits `Detected{path, size}` exactly for the
pending paths whose stat succeeds — with no debounce condition on the
entry's timestamp and no zero-size restriction. -/
theorem watcherFlush_spec (stat : FsPath → Option Nat) (pending : PendingMap)
    (p : FsPath) (size : Nat) :
    FileEvent.Detected p size ∈ watcherFlush stat pending ↔
      (∃ t, (p, t) ∈ pending) ∧ stat p = some size := by
  simp only [watcherFlush, List.mem_filterMap]
  constructor
  · rintro ⟨⟨q, t⟩, he, hmap⟩
    rcases hstat : stat q with _ | sz
    · simp [hstat] at hmap
    · simp only [hstat, Option.map_some', Option.some.injEq,
        FileEvent.Detected.injEq] at hmap
      obtain ⟨hep, hes⟩ := hmap
      subst hep
      subst hes
      exact ⟨⟨t, he⟩, hstat⟩
  · rintro ⟨⟨t, ht⟩, hstat⟩
    exact ⟨(p, t), ht, by simp [hstat]⟩

/-- Witness for `watcherFlush_spec`: a pending zero-size file with a
fresh timestamp is still emitted by the shutdown flush. -/
theorem watcherFlush_spec_witness :
    FileEvent.Detected ['a'] 0 ∈ watcherFlush (fun _ => some 0) [(['a'], 99)] ↔
      (∃ t, (['a'], t) ∈ ([(['a'], 99)] : PendingMap)) ∧
        (fun _ => some 0) ['a'] = some 0 :=
  watcherFlush_spec (fun _ => some 0) [(['a'], 99)] ['a'] 0

theorem charVal_decDigitChar (k : Nat) (hk : k < 10) :
    charVal (decDigitChar k) = k := by
  interval_cases k <;> decide

theorem decVal_append_digit (l : List Char) (c : Char) :
    decVal (l ++ [c]) = 10 * decVal l + charVal c := by
  simp [decVal, List.foldl_append]

theorem decVal_natDigits (n : Nat) : decVal (natDigits n) = n := by
  induction n using Nat.strong_induction_on with
  | _ n ih =>
    by_cases h : n < 10
    · rw [natDigits, if_pos h]
      simp [decVal, charVal_decDigitChar n h]
    · rw [natDigits, if_neg h]
      rw [decVal_append_digit]
      rw [ih (n / 10) (Nat.div_lt_self (by omega) (by omega))]
      rw [charVal_decDigitChar (n % 10) (Nat.mod_lt n (by omega))]
      omega

theorem natDigits_inj {a b : Nat} (h : natDigits a = natDigits b) : a = b := by
  have hv := congrArg decVal h
  rwa [decVal_natDigits, decVal_natDigits] at hv

theorem targetCand_inj (config : OrganizerConfig) (media_type : MediaType)
    (dt : DT) (ext : FsPath) :
    Function.Injective (targetCand config media_type dt ext) := by
  intro a b h
  unfold targetCand joinPath at h
  have h1 := List.append_cancel_left h
  injection h1 with _ h2
  have h3 := List.append_cancel_right h2
  have h4 := List.append_cancel_left h3
  injection h4 with _ h5
  exact natDigits_inj h5

theorem lookupFs_isSome_iff (fs : Fs) (p : FsPath) :
    (lookupFs fs p).isSome = true ↔ p ∈ fs.map Prod.fst := by
  induction fs with
  | nil => simp [lookupFs]
  | cons hd tl ih =>
    obtain ⟨q, c⟩ := hd
    by_cases h : q = p
    · subst h
      simp [lookupFs]
    · have h2 : ¬ p = q := fun hh => h hh.symm
      simp [lookupFs, h, h2, ih]

theorem exists_free_cand (fs : Fs) (cand : Nat → FsPath)
    (hinj : Function.Injective cand) :
    ∃ n, 1 ≤ n ∧ n ≤ fs.length + 1 ∧ lookupFs fs (cand n) = none := by
  by_contra hcon
  push_neg at hcon
  have hall : ∀ n ∈ List.range' 1 (fs.length + 1), cand n ∈ fs.map Prod.fst := by
    intro n hn
    rw [List.mem_range'_1] at hn
    have hne := hcon n (by omega) (by omega)
    have hsome : (lookupFs fs (cand n)).isSome = true := by
      rcases hl : lookupFs fs (cand n) with _ | c
      · exact absurd hl hne
      · rfl
    exact (lookupFs_isSome_iff fs (cand n)).1 hsome
  have hnd : ((List.range' 1 (fs.length + 1)).map cand).Nodup :=
    List.Nodup.map hinj (List.nodup_range' 1 (fs.length + 1))
  have hsub : (List.range' 1 (fs.length + 1)).map cand ⊆ fs.map Prod.fst := by
    intro x hx
    rcases List.mem_map.1 hx with ⟨n, hn, rfl⟩
    exact hall n hn
  have hlen := (hnd.subperm hsub).length_le
  simp [List.length_map, List.length_range'] at hlen

theorem probe_eq_some (occ : FsPath → Bool) (mk : Nat → FsPath)
    (fuel k n : Nat) (hkn : k ≤ n) (hlt : n < k + fuel)
    (hfree : occ (mk n) = false)
    (hmin : ∀ m, k ≤ m → m < n → occ (mk m) = true) :
    probe occ mk fuel k = some (mk n) := by
  induction fuel generalizing k with
  | zero => omega
  | succ fuel ih =>
    simp only [probe]
    by_cases h : occ (mk k) = true
    · have hkn2 : k ≠ n := by
        intro he
        rw [he, hfree] at h
        cases h
      rw [if_pos h]
      exact ih (k + 1) (by omega) (by omega)
        (fun m hm1 hm2 => hmin m (by omega) hm2)
    · have hn : n = k := by
        by_contra hne
        exact h (hmin k (Nat.le_refl k) (by omega))
      rw [if_neg h, hn]

/-- C4: destination-path construction is a pure function of the
filesystem and the (media type, timestamp, extension) triple — computing
it twice over an unchanged filesystem yields the same path; when the
base path is free it is returned unchanged, and when the base path is
occupied the result carries suffix `n` for the smallest `n ≥ 1` whose
candidate is free.  The hypothesis bounds the filesystem by the `u32`
range of the probe loop. -/
theorem build_target_path_spec (fs : Fs) (config : OrganizerConfig)
    (media_type : MediaType) (dt : DT) (ext : FsPath)
    (hfs : fs.length < U32_PROBE_LIMIT) :
    (lookupFs fs (targetBase config media_type dt ext) = none →
      build_target_path fs config media_type dt ext
        = some (targetBase config media_type dt ext)) ∧
    build_target_path fs config media_type dt ext
      = build_target_path fs config media_type dt ext ∧
    ((lookupFs fs (targetBase config media_type dt ext)).isSome = true →
      ∃ n, 1 ≤ n ∧
        lookupFs fs (targetCand config media_type dt ext n) = none ∧
        (∀ m, 1 ≤ m → m < n →
          (lookupFs fs (targetCand config media_type dt ext m)).isSome = true) ∧
        build_target_path fs config media_type dt ext
          = some (targetCand config media_type dt ext n)) := by
  refine ⟨?_, rfl, ?_⟩
  · intro hnone
    simp [build_target_path, hnone]
  · intro hocc
    obtain ⟨w, hw1, hwb, hwfree⟩ :=
      exists_free_cand fs (targetCand config media_type dt ext)
        (targetCand_inj config media_type dt ext)
    have hP : ∃ j, lookupFs fs (targetCand config media_type dt ext (j + 1)) = none :=
      ⟨w - 1, by rw [Nat.sub_add_cancel hw1]; exact hwfree⟩
    have hfree0 : lookupFs fs
        (targetCand config media_type dt ext (Nat.find hP + 1)) = none :=
      Nat.find_spec hP
    have hmin0 : ∀ m, 1 ≤ m → m < Nat.find hP + 1 →
        (lookupFs fs (targetCand config media_type dt ext m)).isSome = true := by
      intro m hm1 hmlt
      have hjlt : m - 1 < Nat.find hP := by omega
      have hnm := Nat.find_min hP hjlt
      have hm1' : m - 1 + 1 = m := by omega
      rw [hm1'] at hnm
      rcases hl : lookupFs fs (targetCand config media_type dt ext m) with _ | c
      · exact absurd hl hnm
      · rfl
    have hbound : Nat.find hP + 1 ≤ w := by
      have hfm : Nat.find hP ≤ w - 1 :=
        Nat.find_min' hP (by rw [Nat.sub_add_cancel hw1]; exact hwfree)
      omega
    have hprobe := probe_eq_some (fun p => (lookupFs fs p).isSome)
      (targetCand config media_type dt ext) U32_PROBE_LIMIT 1 (Nat.find hP + 1)
      (by omega)
      (by
        have hwf : w ≤ fs.length + 1 := hwb
        simp only [U32_PROBE_LIMIT] at hfs ⊢
        omega)
      (by simp [hfree0])
      (fun m hm1 hm2 => hmin0 m hm1 hm2)
    refine ⟨Nat.find hP + 1, by omega, hfree0, hmin0, ?_⟩
    simp only [build_target_path, hocc, if_true]
    exact hprobe

/-- Witness for `build_target_path_spec`: over an empty filesystem the
base candidate path is returned. -/
theorem build_target_path_spec_witness :
    ([] : Fs).length < U32_PROBE_LIMIT ∧
    build_target_path [] ⟨true, ['p'], ['I'], ['V'], [], [], 2000, none⟩
        .Photo ⟨2026, 2, 11, 14, 30, 22⟩ ("jpg").data
      = some (targetBase ⟨true, ['p'], ['I'], ['V'], [], [], 2000, none⟩
          .Photo ⟨2026, 2, 11, 14, 30, 22⟩ ("jpg").data) :=
  ⟨by decide,
    (build_target_path_spec [] ⟨true, ['p'], ['I'], ['V'], [], [], 2000, none⟩
      .Photo ⟨2026, 2, 11, 14, 30, 22⟩ ("jpg").data (by decide)).1 rfl⟩
